import Mathlib

/-!
Shallow embedding of the CORS middleware in `cors.py`: configuration
resolution (`CorsMiddleware.__init__`), request gating
(`process_request`) and response decoration (`process_response`),
together with the boolean coercion `bool_from_string`.

Modelling conventions:
* Python strings are Lean `String`s; the Python string operations the
  source uses (`strip`, `split`, `upper`, `lower`, `join`) are embedded
  as structural recursions over the character list `String.data`, so
  that every definition evaluates inside the kernel.  Case conversion
  uses the ASCII maps `Char.toUpper` / `Char.toLower` and whitespace is
  the ASCII whitespace of `Char.isWhitespace` (HTTP method and option
  tokens are ASCII, so this agrees with Python on the inputs of
  interest).
* A Python `set` of strings is modelled as a duplicate-free list keeping
  the first occurrence of each element; membership coincides with Python
  set membership, and the iteration order used by the space join is
  fixed to first-occurrence order (CPython leaves set iteration order
  unspecified).
* Python dicts keyed by strings are association lists with first-match
  lookup; `d[k] = v` overwrites the first binding of `k` in place and
  `d.update(e)` performs that assignment for every binding of `e` in
  order.
* A `webob` request exposes `headers.get("Origin")` as an optional
  string (`none` when the header is absent) and `request.method` as a
  string.  A `webob` response has a status, a mutable header dict, a
  body and an optional back-reference `response.request` to its
  originating request; `webob.Response()` is a fresh empty 200 response
  with no back-reference, and `webob.exc.HTTPUnauthorized()` is a 401
  response.  Python truthiness of `origin` (false for `None` and for the
  empty string) is modelled explicitly where the source relies on it.
-/

/-- Python dict lookup `d.get(k)` on an association list: first match wins. -/
def dictGet (d : List (String × String)) (k : String) : Option String :=
  match d with
  | [] => none
  | (k₁, v) :: rest => if k₁ = k then some v else dictGet rest k

/-- Python dict assignment `d[k] = v`: overwrite the first binding of `k`,
append a new binding when `k` is absent. -/
def dictSet (d : List (String × String)) (k v : String) : List (String × String) :=
  match d with
  | [] => [(k, v)]
  | (k₁, v₁) :: rest => if k₁ = k then (k, v) :: rest else (k₁, v₁) :: dictSet rest k v

/-- Python `d.update(e)`: assign every binding of `e` into `d`, in order. -/
def dictUpdate (d e : List (String × String)) : List (String × String) :=
  e.foldl (fun acc kv => dictSet acc kv.1 kv.2) d

/-- Split a character list at every character satisfying `p`, keeping
empty pieces; the result is never empty. -/
def splitChars (p : Char → Bool) : List Char → List (List Char)
  | [] => [[]]
  | c :: rest =>
    match splitChars p rest with
    | [] => [[]]
    | g :: gs => if p c then [] :: g :: gs else (c :: g) :: gs

/-- Python `str.strip()`: drop ASCII whitespace from both ends. -/
def pyStrip (s : String) : String :=
  ⟨((s.data.dropWhile Char.isWhitespace).reverse.dropWhile Char.isWhitespace).reverse⟩

/-- Python `str.split()` with no separator: split on whitespace, dropping
empty tokens. -/
def pySplitWhitespace (s : String) : List String :=
  ((splitChars Char.isWhitespace s.data).map (fun g => (⟨g⟩ : String))).filter
    (fun t => t ≠ "")

/-- Python `str.split(sep)` for a one-character separator (the source only
splits on `","`): split at every separator, keeping empty tokens. -/
def pySplitSep (sep : Char) (s : String) : List String :=
  (splitChars (fun c => c = sep) s.data).map (fun g => (⟨g⟩ : String))

/-- Python `sep.join(xs)`. -/
def pyJoin (sep : String) : List String → String
  | [] => ""
  | x :: xs =>
    match xs with
    | [] => x
    | _ :: _ => x ++ sep ++ pyJoin sep xs

/-- Python `str.upper()` on ASCII data: uppercase every character. -/
def pyUpper (s : String) : String := ⟨s.data.map Char.toUpper⟩

/-- Python `str.lower()` on ASCII data: lowercase every character. -/
def pyLower (s : String) : String := ⟨s.data.map Char.toLower⟩

/-- Python `set(xs)` for a list of strings: drop duplicates, keeping the
first occurrence of each element. -/
def pySet : List String → List String
  | [] => []
  | x :: xs => x :: (pySet xs).filter (fun y => y ≠ x)

/-- An incoming HTTP request, as the middleware observes it:
`origin` is `request.headers.get("Origin")`, `method` is `request.method`. -/
structure Request where
  origin : Option String
  method : String
deriving DecidableEq

/-- An outgoing HTTP response: status code, header dict, body and the
optional back-reference `response.request` to its originating request. -/
structure Response where
  status : Nat
  headers : List (String × String)
  body : String
  request : Option Request
deriving DecidableEq

/-- Fresh response `webob.Response()`: a fresh empty 200 response with no originating
request attached. -/
def webobResponse : Response :=
  { status := 200, headers := [], body := "", request := none }

/-- Terminal 401 response `webob.exc.HTTPUnauthorized()`. -/
def httpUnauthorized : Response :=
  { status := 401, headers := [], body := "", request := none }

/-- Default option table `DEFAULT_CONFIGURATION` from `cors.py`. -/
def DEFAULT_CONFIGURATION : List (String × String) :=
  [("allow_origins", "*"),
   ("allow_methods", "GET, POST, PUT, DELETE, OPTIONS"),
   ("allow_headers", "Origin, Content-type, Accept, X-Auth-Token"),
   ("expose_headers", "etag, x-timestamp, x-trans-id, vary"),
   ("allow_credentials", "false"),
   ("hijack_options", "true"),
   ("max_age", "3600")]

/-- Recognized true tokens `TRUE_STRINGS` from `cors.py`. -/
def TRUE_STRINGS : List String := ["1", "t", "true", "on", "y", "yes"]

/-- Recognized false tokens `FALSE_STRINGS` from `cors.py`. -/
def FALSE_STRINGS : List String := ["0", "f", "false", "off", "n", "no"]

/-- Source function `bool_from_string(subject, strict)` from `cors.py`: lowercase the
stripped subject; recognized true tokens yield `true`, recognized false
tokens yield `false`; anything else raises `ValueError` in strict mode
and yields `false` otherwise.  Raising is modelled by `Except.error`. -/
def bool_from_string (subject : String) (strict : Bool) : Except String Bool :=
  let lowered := pyLower (pyStrip subject)
  if lowered ∈ TRUE_STRINGS then Except.ok true
  else if lowered ∈ FALSE_STRINGS then Except.ok false
  else if strict then Except.error ("Unrecognized value " ++ subject)
  else Except.ok false

/-- The middleware instance state built by `CorsMiddleware.__init__`:
`allowed_origins`, `allowed_methods`, `hijack_options` and the
precomputed `cors_headers` response-header dict. -/
structure CorsMiddleware where
  allowed_origins : List String
  allowed_methods : List String
  hijack_options : Bool
  cors_headers : List (String × String)
deriving DecidableEq

/-- Merged configuration lookup `conf[k]` where
`conf = DEFAULT_CONFIGURATION.copy(); conf.update(kwargs)`.
All keys the source reads are present in the defaults, so the `""`
fallback of `getD` is never reached for them. -/
def confValue (kwargs : List (String × String)) (k : String) : String :=
  (dictGet (dictUpdate DEFAULT_CONFIGURATION kwargs) k).getD ""

/-- Constructor `CorsMiddleware.__init__(self, *args, **kwargs)`: merge `kwargs` over
the defaults, split `allow_origins` on whitespace into a set, split
`allow_methods` on commas into a set of stripped uppercased tokens,
parse `hijack_options` non-strictly, and precompute the six CORS
response headers.  The `Except.error` arm is dead code: the non-strict
coercion never raises. -/
def CorsMiddleware.init (kwargs : List (String × String)) : CorsMiddleware :=
  let allowed_origins := pySet (pySplitWhitespace (confValue kwargs "allow_origins"))
  let allowed_methods :=
    pySet ((pySplitSep ',' (confValue kwargs "allow_methods")).map
      (fun m => pyUpper (pyStrip m)))
  { allowed_origins := allowed_origins
    allowed_methods := allowed_methods
    hijack_options :=
      match bool_from_string (confValue kwargs "hijack_options") false with
      | Except.ok b => b
      | Except.error _ => false
    cors_headers :=
      [("access-control-allow-origin", pyJoin " " allowed_origins),
       ("access-control-max-age", confValue kwargs "max_age"),
       ("access-control-allow-methods", confValue kwargs "allow_methods"),
       ("access-control-allow-headers", confValue kwargs "allow_headers"),
       ("access-control-expose-headers", confValue kwargs "expose_headers"),
       ("access-control-allow-credentials", confValue kwargs "allow_credentials")] }

set_option linter.unusedVariables false in
/-- Method `CorsMiddleware.process_response(self, request, response)`: when the
originating request is unknown (`response.request` is `None`) or carries
an `Origin` header (a presence test, regardless of the value), update
the response headers with the precomputed CORS headers; otherwise return
the response unchanged.  The `request` parameter is accepted but never
consulted, exactly as in the source. -/
def CorsMiddleware.process_response (self : CorsMiddleware) (request : Request)
    (response : Response) : Response :=
  match response.request with
  | none => { response with headers := dictUpdate response.headers self.cors_headers }
  | some r =>
    if r.origin.isSome then
      { response with headers := dictUpdate response.headers self.cors_headers }
    else response

/-- The outcome of `CorsMiddleware.process_request`: either `pass`
(the Python method returns `None` and the pipeline continues) or a
terminal response. -/
inductive GateResult where
  | pass
  | terminal (response : Response)
deriving DecidableEq

/-- Method `CorsMiddleware.process_request(self, request)`: only a truthy
`Origin` header (present and non-empty) triggers the checks; an
unlisted origin without wildcard, or a method outside
`allowed_methods`, yields `HTTPUnauthorized`; a hijacked `OPTIONS`
request yields the decorated fresh empty response; everything else
passes. -/
def CorsMiddleware.process_request (self : CorsMiddleware) (request : Request) :
    GateResult :=
  match request.origin with
  | none => GateResult.pass
  | some origin =>
    if origin = "" then GateResult.pass
    else if origin ∉ self.allowed_origins ∧ "*" ∉ self.allowed_origins then
      GateResult.terminal httpUnauthorized
    else if request.method ∉ self.allowed_methods then
      GateResult.terminal httpUnauthorized
    else if self.hijack_options ∧ request.method = "OPTIONS" then
      GateResult.terminal (self.process_response request webobResponse)
    else GateResult.pass

/-! Lemmas about the dict model. -/

theorem dictUpdate_cons (d : List (String × String)) (kv : String × String)
    (e : List (String × String)) :
    dictUpdate d (kv :: e) = dictUpdate (dictSet d kv.1 kv.2) e := rfl

theorem dictGet_dictSet_self (d : List (String × String)) (k v : String) :
    dictGet (dictSet d k v) k = some v := by
  induction d with
  | nil => simp [dictSet, dictGet]
  | cons kv rest ih =>
    obtain ⟨k₁, v₁⟩ := kv
    by_cases h : k₁ = k
    · simp [dictSet, h, dictGet]
    · simp [dictSet, h, dictGet, ih]

theorem dictGet_dictSet_ne (d : List (String × String)) (k v k₂ : String)
    (h : k ≠ k₂) : dictGet (dictSet d k v) k₂ = dictGet d k₂ := by
  induction d with
  | nil => simp [dictSet, dictGet, h]
  | cons kv rest ih =>
    obtain ⟨k₁, v₁⟩ := kv
    by_cases h1 : k₁ = k
    · subst h1
      simp [dictSet, dictGet, h]
    · simp [dictSet, h1, dictGet, ih]

theorem dictGet_mem (d : List (String × String)) (k v : String)
    (h : dictGet d k = some v) : (k, v) ∈ d := by
  induction d with
  | nil => simp [dictGet] at h
  | cons kv rest ih =>
    obtain ⟨k₁, v₁⟩ := kv
    by_cases h1 : k₁ = k
    · subst h1
      simp [dictGet] at h
      simp [h]
    · simp [dictGet, h1] at h
      exact List.mem_cons_of_mem _ (ih h)

theorem dictGet_dictUpdate_not_mem (d e : List (String × String)) (k : String)
    (h : k ∉ e.map Prod.fst) : dictGet (dictUpdate d e) k = dictGet d k := by
  induction e generalizing d with
  | nil => rfl
  | cons kv rest ih =>
    simp only [List.map_cons, List.mem_cons, not_or] at h
    rw [dictUpdate_cons, ih _ h.2, dictGet_dictSet_ne _ _ _ _ (Ne.symm h.1)]

theorem dictGet_dictUpdate_mem (d e : List (String × String)) (k v : String)
    (hnd : (e.map Prod.fst).Nodup) (hm : (k, v) ∈ e) :
    dictGet (dictUpdate d e) k = some v := by
  induction e generalizing d with
  | nil => cases hm
  | cons kv rest ih =>
    rw [dictUpdate_cons]
    rw [List.map_cons, List.nodup_cons] at hnd
    rcases List.mem_cons.mp hm with h | h
    · have hk : k ∉ rest.map Prod.fst := by
        rw [← h] at hnd
        exact hnd.1
      rw [dictGet_dictUpdate_not_mem _ _ _ hk, ← h]
      exact dictGet_dictSet_self d k v
    · exact ih _ hnd.2 h

theorem dictSet_noop (d : List (String × String)) (k v : String)
    (h : dictGet d k = some v) : dictSet d k v = d := by
  induction d with
  | nil => simp [dictGet] at h
  | cons kv rest ih =>
    obtain ⟨k₁, v₁⟩ := kv
    by_cases h1 : k₁ = k
    · subst h1
      simp [dictGet] at h
      simp [dictSet, h]
    · simp [dictGet, h1] at h
      simp [dictSet, h1, ih h]

theorem dictUpdate_noop (d e : List (String × String))
    (h : ∀ kv ∈ e, dictGet d kv.1 = some kv.2) : dictUpdate d e = d := by
  induction e with
  | nil => rfl
  | cons kv rest ih =>
    rw [dictUpdate_cons, dictSet_noop _ _ _ (h kv (List.mem_cons_self kv rest))]
    exact ih fun kv h2 => h kv (List.mem_cons_of_mem _ h2)

theorem dictUpdate_idem (d e : List (String × String))
    (hnd : (e.map Prod.fst).Nodup) :
    dictUpdate (dictUpdate d e) e = dictUpdate d e :=
  dictUpdate_noop _ _ fun kv hm =>
    dictGet_dictUpdate_mem d e kv.1 kv.2 hnd (by simpa using hm)

/-! Lemmas about the set model. -/

theorem mem_pySet {y : String} : ∀ {xs : List String}, y ∈ pySet xs ↔ y ∈ xs := by
  intro xs
  induction xs with
  | nil => simp [pySet]
  | cons x xs ih =>
    simp only [pySet, List.mem_cons, List.mem_filter, decide_eq_true_iff]
    constructor
    · rintro (h | ⟨h1, _⟩)
      · exact Or.inl h
      · exact Or.inr (ih.mp h1)
    · rintro (h | h)
      · exact Or.inl h
      · by_cases hx : y = x
        · exact Or.inl hx
        · exact Or.inr ⟨ih.mpr h, hx⟩

/-! Lemmas about case conversion. -/

theorem char_toNat_ofNat {n : Nat} (h : n.isValidChar) :
    (Char.ofNat n).toNat = n := by
  rw [Char.ofNat, dif_pos h]
  rfl

theorem char_isLower_iff (c : Char) :
    c.isLower = true ↔ 97 ≤ c.toNat ∧ c.toNat ≤ 122 := by
  simp [Char.isLower, Char.toNat, UInt32.le_def, BitVec.le_def, UInt32.toNat]

theorem isLower_toUpper_eq_false (c : Char) :
    (Char.toUpper c).isLower = false := by
  rw [Char.toUpper]
  split
  · rename_i h
    have hv : Nat.isValidChar (Char.toNat c - 32) := Or.inl (by omega)
    rw [Bool.eq_false_iff]
    intro hl
    rw [char_isLower_iff, char_toNat_ofNat hv] at hl
    omega
  · rename_i h
    rw [Bool.eq_false_iff]
    intro hl
    rw [char_isLower_iff] at hl
    exact h ⟨hl.1, hl.2⟩

theorem isLower_eq_false_of_mem_pyUpper {s : String} {c : Char}
    (h : c ∈ (pyUpper s).data) : c.isLower = false := by
  obtain ⟨a, _, rfl⟩ := List.mem_map.mp h
  exact isLower_toUpper_eq_false a

/-! Projections of the constructed middleware state. -/

theorem init_allowed_origins (kwargs : List (String × String)) :
    (CorsMiddleware.init kwargs).allowed_origins =
      pySet (pySplitWhitespace (confValue kwargs "allow_origins")) := rfl

theorem init_allowed_methods (kwargs : List (String × String)) :
    (CorsMiddleware.init kwargs).allowed_methods =
      pySet ((pySplitSep ',' (confValue kwargs "allow_methods")).map
        (fun m => pyUpper (pyStrip m))) := rfl

theorem init_cors_headers (kwargs : List (String × String)) :
    (CorsMiddleware.init kwargs).cors_headers =
      [("access-control-allow-origin",
          pyJoin " " (CorsMiddleware.init kwargs).allowed_origins),
       ("access-control-max-age", confValue kwargs "max_age"),
       ("access-control-allow-methods", confValue kwargs "allow_methods"),
       ("access-control-allow-headers", confValue kwargs "allow_headers"),
       ("access-control-expose-headers", confValue kwargs "expose_headers"),
       ("access-control-allow-credentials", confValue kwargs "allow_credentials")] := rfl

theorem init_cors_header_names (kwargs : List (String × String)) :
    (CorsMiddleware.init kwargs).cors_headers.map Prod.fst =
      ["access-control-allow-origin", "access-control-max-age",
       "access-control-allow-methods", "access-control-allow-headers",
       "access-control-expose-headers", "access-control-allow-credentials"] := rfl

theorem init_cors_header_names_nodup (kwargs : List (String × String)) :
    ((CorsMiddleware.init kwargs).cors_headers.map Prod.fst).Nodup := by
  rw [init_cors_header_names]
  decide

theorem bool_from_string_nonstrict (s : String) :
    bool_from_string s false =
      Except.ok (decide (pyLower (pyStrip s) ∈ TRUE_STRINGS)) := by
  unfold bool_from_string
  by_cases h1 : pyLower (pyStrip s) ∈ TRUE_STRINGS
  · simp [h1]
  · by_cases h2 : pyLower (pyStrip s) ∈ FALSE_STRINGS <;> simp [h1, h2]

theorem init_hijack_options (kwargs : List (String × String)) :
    (CorsMiddleware.init kwargs).hijack_options =
      decide (pyLower (pyStrip (confValue kwargs "hijack_options")) ∈ TRUE_STRINGS) := by
  show (match bool_from_string (confValue kwargs "hijack_options") false with
        | Except.ok b => b
        | Except.error _ => false) = _
  rw [bool_from_string_nonstrict]

theorem dictGet_eq_none (d : List (String × String)) (k : String) :
    dictGet d k = none ↔ k ∉ d.map Prod.fst := by
  induction d with
  | nil => simp [dictGet]
  | cons kv rest ih =>
    obtain ⟨k₁, v₁⟩ := kv
    by_cases h1 : k₁ = k
    · subst h1
      simp [dictGet]
    · simp [dictGet, h1, ih, Ne.symm h1]

theorem true_false_strings_disjoint : ∀ x ∈ FALSE_STRINGS, x ∉ TRUE_STRINGS := by
  decide

/-- The injection condition of `process_response`, as the source computes
it: `not response.request or "Origin" in response.request.headers`. -/
def corsApplies : Option Request → Bool
  | none => true
  | some r => r.origin.isSome

theorem process_response_eq (P : CorsMiddleware) (request : Request)
    (resp : Response) :
    P.process_response request resp =
      if corsApplies resp.request then
        { resp with headers := dictUpdate resp.headers P.cors_headers }
      else resp := by
  unfold CorsMiddleware.process_response
  rcases hr : resp.request with _ | r
  · simp [corsApplies, hr]
  · rcases ho : r.origin with _ | s <;> simp [corsApplies, hr, ho]

theorem process_request_some (P : CorsMiddleware) (req : Request) (s : String)
    (h : req.origin = some s) (hne : s ≠ "") :
    P.process_request req =
      if s ∉ P.allowed_origins ∧ "*" ∉ P.allowed_origins then
        GateResult.terminal httpUnauthorized
      else if req.method ∉ P.allowed_methods then
        GateResult.terminal httpUnauthorized
      else if P.hijack_options ∧ req.method = "OPTIONS" then
        GateResult.terminal (P.process_response req webobResponse)
      else GateResult.pass := by
  simp only [CorsMiddleware.process_request, h]
  rw [if_neg hne]

/-! Claim theorems. -/

/-- Counterexample to claim C1 as stated: a request whose `Origin` header is
present but empty satisfies the rejection condition of the claim (its origin
is not listed and no wildcard is configured), yet `process_request` returns
pass instead of a 401, because the source tests Python truthiness of the
header value rather than its presence. -/
theorem requestGate_401_iff_counterexample :
    ((({ origin := some "", method := "GET" } : Request).origin).isSome = true) ∧
    ("" ∉ (CorsMiddleware.init [("allow_origins", "http://a.example")]).allowed_origins ∧
      "*" ∉ (CorsMiddleware.init [("allow_origins", "http://a.example")]).allowed_origins) ∧
    (CorsMiddleware.init [("allow_origins", "http://a.example")]).process_request
        { origin := some "", method := "GET" } = GateResult.pass := by
  decide

/-- Claim C1 (amended): for every request carrying a non-empty `Origin`
value, `process_request` returns the terminal 401 response
`HTTPUnauthorized` exactly when the origin is not a member of
`allowed_origins` with no wildcard configured, or the method is not a
member of `allowed_methods`; both rejection causes produce the identical
401 response, and an unlisted origin is rejected regardless of method. -/
theorem requestGate_401_iff (P : CorsMiddleware) (req : Request) (s : String)
    (h1 : req.origin = some s) (h2 : s ≠ "") :
    P.process_request req = GateResult.terminal httpUnauthorized ↔
      ((s ∉ P.allowed_origins ∧ "*" ∉ P.allowed_origins) ∨
        req.method ∉ P.allowed_methods) := by
  rw [process_request_some P req s h1 h2]
  by_cases hO : s ∉ P.allowed_origins ∧ "*" ∉ P.allowed_origins
  · simp [hO]
  · rw [if_neg hO]
    by_cases hM : req.method ∉ P.allowed_methods
    · simp [hO, hM]
    · rw [if_neg hM]
      by_cases hH : P.hijack_options = true ∧ req.method = "OPTIONS"
      · rw [if_pos hH]
        simp only [hO, hM, or_self, iff_false, false_or]
        intro hEq
        have hx : P.process_response req webobResponse = httpUnauthorized := by
          simpa using hEq
        have h200 : (P.process_response req webobResponse).status = 200 := rfl
        rw [hx] at h200
        exact absurd h200 (by decide)
      · rw [if_neg hH]
        simp [hO, hM]

/-- Witness for the amended claim C1: under the configuration allowing only
`http://a.example`, a request from `http://evil.example` is rejected. -/
theorem requestGate_401_iff_witness :
    (CorsMiddleware.init [("allow_origins", "http://a.example")]).process_request
        { origin := some "http://evil.example", method := "GET" } =
      GateResult.terminal httpUnauthorized :=
  (requestGate_401_iff _ _ "http://evil.example" rfl (by decide)).mpr (by decide)

/-- Claim C3: a request without an `Origin` header always passes, whatever
the method and the configured policy. -/
theorem requestGate_pass_of_no_origin (P : CorsMiddleware) (req : Request)
    (h : req.origin = none) : P.process_request req = GateResult.pass := by
  simp [CorsMiddleware.process_request, h]

/-- Witness for claim C3 at a concrete request and the default policy. -/
theorem requestGate_pass_of_no_origin_witness :
    (({ origin := none, method := "PATCH" } : Request).origin = none) ∧
    (CorsMiddleware.init []).process_request
        { origin := none, method := "PATCH" } = GateResult.pass :=
  ⟨rfl, requestGate_pass_of_no_origin _ _ rfl⟩

/-- Claim C8: with origins `http://a.example http://b.example` and methods
`GET,POST`, a `GET` request from `http://a.example` passes the gate, and the
decorated response carries both configured origins, space-joined, in
`access-control-allow-origin`. -/
theorem scenario_two_origins :
    (CorsMiddleware.init [("allow_origins", "http://a.example http://b.example"),
        ("allow_methods", "GET,POST")]).process_request
        { origin := some "http://a.example", method := "GET" } = GateResult.pass ∧
    dictGet ((CorsMiddleware.init [("allow_origins", "http://a.example http://b.example"),
        ("allow_methods", "GET,POST")]).process_response
          { origin := some "http://a.example", method := "GET" }
          { status := 200, headers := [], body := "",
            request := some { origin := some "http://a.example", method := "GET" } }).headers
        "access-control-allow-origin" =
      some "http://a.example http://b.example" := by
  decide

/-- Claim C10: `process_response` never consults its explicit `request`
parameter; any two invocations differing only in that argument return the
same response. -/
theorem responseDecorator_ignores_request_param (P : CorsMiddleware)
    (r₁ r₂ : Request) (resp : Response) :
    P.process_response r₁ resp = P.process_response r₂ resp := rfl

/-- Claim C2: for a request with an allowed non-empty origin, an allowed
method, method exactly `OPTIONS`, and `hijack_options` on, the gate
returns a terminal result carrying the freshly constructed empty 200
response run through `process_response`, and that response bears every
one of the six precomputed CORS headers. -/
theorem requestGate_preflight_ok (kwargs : List (String × String))
    (P : CorsMiddleware) (req : Request) (s : String)
    (hP : P = CorsMiddleware.init kwargs)
    (h1 : req.origin = some s) (h2 : s ≠ "")
    (h3 : s ∈ P.allowed_origins ∨ "*" ∈ P.allowed_origins)
    (h4 : req.method ∈ P.allowed_methods)
    (h5 : req.method = "OPTIONS")
    (h6 : P.hijack_options = true) :
    P.process_request req =
      GateResult.terminal (P.process_response req webobResponse) ∧
    (P.process_response req webobResponse).status = 200 ∧
    (P.process_response req webobResponse).body = "" ∧
    ∀ kv ∈ P.cors_headers,
      dictGet (P.process_response req webobResponse).headers kv.1 = some kv.2 := by
  subst hP
  refine ⟨?_, rfl, rfl, ?_⟩
  · rw [process_request_some _ req s h1 h2,
      if_neg (fun hc => h3.elim hc.1 hc.2), if_neg (not_not_intro h4),
      if_pos ⟨h6, h5⟩]
  · intro kv hkv
    show dictGet (dictUpdate [] (CorsMiddleware.init kwargs).cors_headers) kv.1 =
      some kv.2
    exact dictGet_dictUpdate_mem _ _ _ _ (init_cors_header_names_nodup kwargs)
      (by simpa using hkv)

/-- Witness for claim C2: a hijacked preflight under the default policy,
showing the terminal decorated response and one injected header. -/
theorem requestGate_preflight_ok_witness :
    (CorsMiddleware.init []).process_request
        { origin := some "http://x.example", method := "OPTIONS" } =
      GateResult.terminal ((CorsMiddleware.init []).process_response
        { origin := some "http://x.example", method := "OPTIONS" } webobResponse) ∧
    dictGet ((CorsMiddleware.init []).process_response
        { origin := some "http://x.example", method := "OPTIONS" }
        webobResponse).headers "access-control-allow-origin" = some "*" := by
  have h := requestGate_preflight_ok [] (CorsMiddleware.init [])
    { origin := some "http://x.example", method := "OPTIONS" }
    "http://x.example" rfl rfl (by decide) (by decide) (by decide) rfl (by decide)
  exact ⟨h.1, h.2.2.2 ("access-control-allow-origin", "*") (by decide)⟩

set_option linter.unusedVariables false in
/-- Claim C5: the gate compares the method as received against the
uppercased `allowed_methods`; a request with an allowed origin whose
method is a lowercase spelling of an allowed method is rejected. -/
theorem requestGate_rejects_lowercase_method (kwargs : List (String × String))
    (req : Request) (s : String)
    (h1 : req.origin = some s) (h2 : s ≠ "")
    (h3 : s ∈ (CorsMiddleware.init kwargs).allowed_origins ∨
      "*" ∈ (CorsMiddleware.init kwargs).allowed_origins)
    (h4 : pyUpper req.method ∈ (CorsMiddleware.init kwargs).allowed_methods)
    (h5 : req.method.data.any Char.isLower = true) :
    (CorsMiddleware.init kwargs).process_request req =
      GateResult.terminal httpUnauthorized := by
  have him : req.method ∉ (CorsMiddleware.init kwargs).allowed_methods := by
    intro hm
    rw [init_allowed_methods] at hm
    obtain ⟨t, _, ht⟩ := List.mem_map.mp (mem_pySet.mp hm)
    obtain ⟨c, hc, hcl⟩ := List.any_eq_true.mp h5
    rw [← ht] at hc
    rw [isLower_eq_false_of_mem_pyUpper hc] at hcl
    cases hcl
  rw [process_request_some _ req s h1 h2,
    if_neg (fun hc => h3.elim hc.1 hc.2), if_pos him]

/-- Witness for claim C5: under the default configuration, method `get`
from an allowed origin is rejected although `GET` is allowed. -/
theorem requestGate_rejects_lowercase_method_witness :
    (CorsMiddleware.init []).process_request
        { origin := some "http://x.example", method := "get" } =
      GateResult.terminal httpUnauthorized :=
  requestGate_rejects_lowercase_method [] _ "http://x.example" rfl (by decide)
    (by decide) (by decide) (by decide)

/-- Claim C4: `process_response` overwrites the six precomputed CORS
headers exactly when the originating request is unknown or carries an
`Origin` header (leaving every other header, the status and the body
unchanged); when the originating request is known and has no `Origin`
header, the response is returned entirely unchanged. -/
theorem responseDecorator_inject_iff (kwargs : List (String × String))
    (request : Request) (resp : Response) :
    ((resp.request = none ∨
        ∃ r, resp.request = some r ∧ r.origin.isSome = true) →
      ((∀ kv ∈ (CorsMiddleware.init kwargs).cors_headers,
          dictGet ((CorsMiddleware.init kwargs).process_response request
            resp).headers kv.1 = some kv.2) ∧
       (∀ n, n ∉ (CorsMiddleware.init kwargs).cors_headers.map Prod.fst →
          dictGet ((CorsMiddleware.init kwargs).process_response request
            resp).headers n = dictGet resp.headers n) ∧
       ((CorsMiddleware.init kwargs).process_response request resp).status =
          resp.status ∧
       ((CorsMiddleware.init kwargs).process_response request resp).body =
          resp.body)) ∧
    (∀ r, resp.request = some r → r.origin = none →
      (CorsMiddleware.init kwargs).process_response request resp = resp) := by
  constructor
  · intro hcond
    have happ : corsApplies resp.request = true := by
      rcases hcond with h | ⟨r, hr, ho⟩
      · rw [h]; rfl
      · rw [hr]; exact ho
    rw [process_response_eq, if_pos happ]
    refine ⟨?_, ?_, rfl, rfl⟩
    · intro kv hkv
      exact dictGet_dictUpdate_mem _ _ _ _ (init_cors_header_names_nodup kwargs)
        (by simpa using hkv)
    · intro n hn
      exact dictGet_dictUpdate_not_mem _ _ _ hn
  · intro r hr ho
    rw [process_response_eq, hr]
    simp [corsApplies, ho]

/-- Witness for claim C4: a response with an unknown originating request
gets the origin header injected while a foreign header survives. -/
theorem responseDecorator_inject_iff_witness :
    dictGet ((CorsMiddleware.init []).process_response
        { origin := none, method := "GET" }
        { status := 204, headers := [("x-app", "y")], body := "b",
          request := none }).headers "access-control-allow-origin" =
      some "*" ∧
    dictGet ((CorsMiddleware.init []).process_response
        { origin := none, method := "GET" }
        { status := 204, headers := [("x-app", "y")], body := "b",
          request := none }).headers "x-app" = dictGet [("x-app", "y")] "x-app" := by
  have h := responseDecorator_inject_iff [] { origin := none, method := "GET" }
    { status := 204, headers := [("x-app", "y")], body := "b", request := none }
  exact ⟨(h.1 (Or.inl rfl)).1 ("access-control-allow-origin", "*") (by decide),
    (h.1 (Or.inl rfl)).2.1 "x-app" (by decide)⟩

/-- Claim C6: `process_response` is idempotent; a second invocation on the
already decorated response changes nothing, because injection overwrites
each of the six header names with its fixed precomputed value. -/
theorem responseDecorator_idempotent (kwargs : List (String × String))
    (request : Request) (resp : Response) :
    (CorsMiddleware.init kwargs).process_response request
        ((CorsMiddleware.init kwargs).process_response request resp) =
      (CorsMiddleware.init kwargs).process_response request resp := by
  by_cases h : corsApplies resp.request = true
  · rw [process_response_eq _ request resp, if_pos h, process_response_eq,
      if_pos (show corsApplies ({ resp with
          headers := dictUpdate resp.headers
            (CorsMiddleware.init kwargs).cors_headers } : Response).request = true
        from h)]
    simp [dictUpdate_idem _ _ (init_cors_header_names_nodup kwargs)]
  · rw [process_response_eq _ request resp, if_neg h,
      process_response_eq _ request resp, if_neg h]

/-- Claim C7: construction semantics.  A key supplied in `kwargs` wholly
replaces the default value and an absent key keeps it; `allowed_origins`
is the whitespace split of the merged `allow_origins`; `allowed_methods`
is the set of comma tokens of the merged `allow_methods`, stripped and
uppercased; the origin response header is the space join of
`allowed_origins` and the other five response headers copy the merged
option values verbatim. -/
theorem configResolver_characterization (kwargs : List (String × String))
    (hk : (kwargs.map Prod.fst).Nodup) :
    (∀ k v, dictGet kwargs k = some v →
        dictGet (dictUpdate DEFAULT_CONFIGURATION kwargs) k = some v) ∧
    (∀ k, dictGet kwargs k = none →
        dictGet (dictUpdate DEFAULT_CONFIGURATION kwargs) k =
          dictGet DEFAULT_CONFIGURATION k) ∧
    (∀ s, s ∈ (CorsMiddleware.init kwargs).allowed_origins ↔
        s ∈ pySplitWhitespace (confValue kwargs "allow_origins")) ∧
    (∀ s, s ∈ (CorsMiddleware.init kwargs).allowed_methods ↔
        ∃ t ∈ pySplitSep ',' (confValue kwargs "allow_methods"),
          s = pyUpper (pyStrip t)) ∧
    dictGet (CorsMiddleware.init kwargs).cors_headers
        "access-control-allow-origin" =
      some (pyJoin " " (CorsMiddleware.init kwargs).allowed_origins) ∧
    dictGet (CorsMiddleware.init kwargs).cors_headers "access-control-max-age" =
      some (confValue kwargs "max_age") ∧
    dictGet (CorsMiddleware.init kwargs).cors_headers
        "access-control-allow-methods" = some (confValue kwargs "allow_methods") ∧
    dictGet (CorsMiddleware.init kwargs).cors_headers
        "access-control-allow-headers" = some (confValue kwargs "allow_headers") ∧
    dictGet (CorsMiddleware.init kwargs).cors_headers
        "access-control-expose-headers" =
      some (confValue kwargs "expose_headers") ∧
    dictGet (CorsMiddleware.init kwargs).cors_headers
        "access-control-allow-credentials" =
      some (confValue kwargs "allow_credentials") := by
  refine ⟨?_, ?_, ?_, ?_, ?_, ?_, ?_, ?_, ?_, ?_⟩
  · intro k v h
    exact dictGet_dictUpdate_mem _ _ _ _ hk (dictGet_mem _ _ _ h)
  · intro k h
    exact dictGet_dictUpdate_not_mem _ _ _ ((dictGet_eq_none _ _).mp h)
  · intro s
    rw [init_allowed_origins]
    exact mem_pySet
  · intro s
    rw [init_allowed_methods, mem_pySet, List.mem_map]
    constructor
    · rintro ⟨t, ht, rfl⟩
      exact ⟨t, ht, rfl⟩
    · rintro ⟨t, ht, rfl⟩
      exact ⟨t, ht, rfl⟩
  · rw [init_cors_headers]
    simp [dictGet]
  · rw [init_cors_headers]
    simp [dictGet]
  · rw [init_cors_headers]
    simp [dictGet]
  · rw [init_cors_headers]
    simp [dictGet]
  · rw [init_cors_headers]
    simp [dictGet]
  · rw [init_cors_headers]
    simp [dictGet]

/-- Witness for claim C7: a supplied `allow_methods` replaces the default
and is copied verbatim into the methods response header. -/
theorem configResolver_characterization_witness :
    dictGet (CorsMiddleware.init [("allow_methods", "get, put")]).cors_headers
        "access-control-allow-methods" = some "get, put" := by
  have h := configResolver_characterization [("allow_methods", "get, put")]
    (by decide)
  exact h.2.2.2.2.2.2.1.trans (by decide)

/-- Claim C9: the boolean coercion is total in non-strict mode, returning
true on the recognized true tokens, false on the recognized false tokens
and false on anything else; it errors exactly when strict mode is set and
the lowered stripped input matches neither token list; and the
constructor parses `hijack_options` with the non-strict mode, which
always returns a value. -/
theorem bool_from_string_total_nonstrict :
    (∀ s, pyLower (pyStrip s) ∈ TRUE_STRINGS →
        bool_from_string s false = Except.ok true) ∧
    (∀ s, pyLower (pyStrip s) ∈ FALSE_STRINGS →
        bool_from_string s false = Except.ok false) ∧
    (∀ s, pyLower (pyStrip s) ∉ TRUE_STRINGS → pyLower (pyStrip s) ∉ FALSE_STRINGS →
        bool_from_string s false = Except.ok false) ∧
    (∀ s strict, (∃ e, bool_from_string s strict = Except.error e) ↔
        (strict = true ∧ pyLower (pyStrip s) ∉ TRUE_STRINGS ∧
          pyLower (pyStrip s) ∉ FALSE_STRINGS)) ∧
    (∀ kwargs, bool_from_string (confValue kwargs "hijack_options") false =
        Except.ok ((CorsMiddleware.init kwargs).hijack_options)) := by
  refine ⟨?_, ?_, ?_, ?_, ?_⟩
  · intro s h
    simp [bool_from_string, h]
  · intro s h
    have hT := true_false_strings_disjoint _ h
    simp [bool_from_string, hT, h]
  · intro s h1 h2
    simp [bool_from_string, h1, h2]
  · intro s strict
    constructor
    · rintro ⟨e, he⟩
      by_cases h1 : pyLower (pyStrip s) ∈ TRUE_STRINGS
      · simp [bool_from_string, h1] at he
      · by_cases h2 : pyLower (pyStrip s) ∈ FALSE_STRINGS
        · simp [bool_from_string, h1, h2] at he
        · refine ⟨?_, h1, h2⟩
          cases strict with
          | true => rfl
          | false => simp [bool_from_string, h1, h2] at he
    · rintro ⟨hs, h1, h2⟩
      subst hs
      exact ⟨"Unrecognized value " ++ s, by simp [bool_from_string, h1, h2]⟩
  · intro kwargs
    rw [bool_from_string_nonstrict, init_hijack_options]

/-- Witness for claim C9 at concrete inputs: a padded uppercase true
token, an unrecognized string and a false token. -/
theorem bool_from_string_total_nonstrict_witness :
    bool_from_string " YES " false = Except.ok true ∧
    bool_from_string "nonsense" false = Except.ok false ∧
    bool_from_string "0" false = Except.ok false := by
  have h := bool_from_string_total_nonstrict
  exact ⟨h.1 " YES " (by decide), h.2.2.1 "nonsense" (by decide) (by decide),
    h.2.1 "0" (by decide)⟩
